import Mathlib

/-!
Verification of the TaskGlitch task-store core (`src/hooks/useTasks.ts`).

The store owns a list of tasks and a single undo slot (`lastDeleted`).
Mutations are synchronous React state updates; we embed them as pure
functions on an explicit `StoreState`.  The JavaScript clock
(`new Date().toISOString()`) and id generator (`crypto.randomUUID()`) are
injected as explicit parameters (`now : Nat`, `genId : String`), following
the spec's design note that time and id generation are injectable
capabilities.  Numbers are embedded as rationals.
-/

namespace TaskGlitch

/-- Task status enum: `'Todo' | 'In Progress' | 'Done'`. -/
inductive Status where
  | todo
  | inProgress
  | done
deriving DecidableEq, Repr

/-- Task priority enum: `'High' | 'Medium' | 'Low'`. -/
inductive Priority where
  | high
  | medium
  | low
deriving DecidableEq, Repr

/-- The canonical `Task` record from `@/types` as used by `useTasks.ts`. -/
structure Task where
  id : String
  title : String
  status : Status
  priority : Priority
  revenue : Rat
  timeTaken : Rat
  createdAt : Nat
  completedAt : Option Nat
deriving DecidableEq, Repr

/-- The store state owned by `useTasks`: the `tasks` array and the
`lastDeleted` undo slot. -/
structure StoreState where
  tasks : List Task
  lastDeleted : Option Task
deriving DecidableEq, Repr

/-- `useState<Task[]>([])` and `useState<Task | null>(null)`. -/
def initState : StoreState :=
  { tasks := [], lastDeleted := none }

/-- The `addTask` payload: `Omit<Task, 'id'> & { id?: string }`.  The
payload's `createdAt`/`completedAt` fields are always overwritten by the
spread in `addTask`, so they are omitted here. -/
structure AddPayload where
  id : Option String
  title : String
  status : Status
  priority : Priority
  revenue : Rat
  timeTaken : Rat
deriving DecidableEq, Repr

/-- `addTask` from `useTasks.ts` (lines 87-98): appends
`{ ...task, id: task.id ?? crypto.randomUUID(),
   timeTaken: task.timeTaken > 0 ? task.timeTaken : 1,
   createdAt: now, completedAt: task.status === 'Done' ? now : undefined }`.
`genId` stands for the `crypto.randomUUID()` call and `now` for
`new Date().toISOString()`. -/
def addTask (p : AddPayload) (genId : String) (now : Nat) (s : StoreState) :
    StoreState :=
  { s with
    tasks := s.tasks ++ [{
      id := p.id.getD genId
      title := p.title
      status := p.status
      priority := p.priority
      revenue := p.revenue
      timeTaken := if p.timeTaken > 0 then p.timeTaken else 1
      createdAt := now
      completedAt := if p.status = Status.done then some now else none }] }

/-- `Partial<Task>`: every field optional.  `completedAt` is doubly
optional because the underlying field is itself optional (`some none`
models a patch that explicitly sets `completedAt` to `undefined`). -/
structure Patch where
  id : Option String := none
  title : Option String := none
  status : Option Status := none
  priority : Option Priority := none
  revenue : Option Rat := none
  timeTaken : Option Rat := none
  createdAt : Option Nat := none
  completedAt : Option (Option Nat) := none
deriving DecidableEq, Repr

/-- The spread merge `{ ...t, ...patch }`: each field present in the patch
overrides the corresponding field of `t`. -/
def applyPatch (t : Task) (p : Patch) : Task :=
  { id := p.id.getD t.id
    title := p.title.getD t.title
    status := p.status.getD t.status
    priority := p.priority.getD t.priority
    revenue := p.revenue.getD t.revenue
    timeTaken := p.timeTaken.getD t.timeTaken
    createdAt := p.createdAt.getD t.createdAt
    completedAt := p.completedAt.getD t.completedAt }

/-- The per-element body of `updateTask`'s `prev.map` (lines 102-110):
skip non-matching ids, merge the patch, coerce `timeTaken <= 0` to 1, and
stamp `completedAt` when the status transitions from non-Done to Done. -/
def updateTaskFn (id : String) (p : Patch) (now : Nat) (t : Task) : Task :=
  if t.id ≠ id then t
  else
    let next := applyPatch t p
    let next := if next.timeTaken ≤ 0 then { next with timeTaken := 1 } else next
    if t.status ≠ Status.done ∧ next.status = Status.done then
      { next with completedAt := some now }
    else next

/-- `updateTask` from `useTasks.ts` (lines 100-112): maps `updateTaskFn`
over the collection. -/
def updateTask (id : String) (p : Patch) (now : Nat) (s : StoreState) :
    StoreState :=
  { s with tasks := s.tasks.map (updateTaskFn id p now) }

/-- `deleteTask` from `useTasks.ts` (lines 114-120):
`const target = prev.find(t => t.id === id) || null; setLastDeleted(target);
return prev.filter(t => t.id !== id);`. -/
def deleteTask (id : String) (s : StoreState) : StoreState :=
  { tasks := s.tasks.filter (fun t => t.id ≠ id)
    lastDeleted := s.tasks.find? (fun t => t.id = id) }

/-- `undoDelete` from `useTasks.ts` (lines 122-126): if the slot holds a
task, append it to the collection and clear the slot; otherwise no-op. -/
def undoDelete (s : StoreState) : StoreState :=
  match s.lastDeleted with
  | none => s
  | some t => { tasks := s.tasks ++ [t], lastDeleted := none }

/-- `clearLastDeleted` from `useTasks.ts` (lines 128-130). -/
def clearLastDeleted (s : StoreState) : StoreState :=
  { s with lastDeleted := none }

/-- One store operation, with the injected clock / id-generator values it
consumed. -/
inductive Op where
  | add (p : AddPayload) (genId : String) (now : Nat)
  | update (id : String) (p : Patch) (now : Nat)
  | del (id : String)
  | undo
  | clearSlot
deriving Repr

/-- Apply one operation to the store state. -/
def applyOp (o : Op) (s : StoreState) : StoreState :=
  match o with
  | Op.add p genId now => addTask p genId now s
  | Op.update id p now => updateTask id p now s
  | Op.del id => deleteTask id s
  | Op.undo => undoDelete s
  | Op.clearSlot => clearLastDeleted s

/-- Run a sequence of store operations from a starting state. -/
def runOps (ops : List Op) (s : StoreState) : StoreState :=
  ops.foldl (fun s o => applyOp o s) s

/-! ### Metrics -/

/-- The `Metrics` record from `@/types` as published by `useTasks`. -/
structure Metrics where
  totalRevenue : Rat
  totalTimeTaken : Rat
  timeEfficiencyPct : Rat
  revenuePerHour : Rat
  averageROI : Rat
  performanceGrade : String
deriving DecidableEq, Repr

/-- `INITIAL_METRICS` from `useTasks.ts` (lines 28-35). -/
def INITIAL_METRICS : Metrics :=
  { totalRevenue := 0
    totalTimeTaken := 0
    timeEfficiencyPct := 0
    revenuePerHour := 0
    averageROI := 0
    performanceGrade := "Needs Improvement" }

/-- Modelled from the spec: `computeTotalRevenue` lives in `@/utils/logic`,
which is not among the provided sources.  Spec §4.4: sum of revenue across
the set (0 for the empty set). -/
def computeTotalRevenue (ts : List Task) : Rat :=
  (ts.map Task.revenue).sum

/-- Modelled from the spec: the per-task ROI from the Derivation Function
(`@/utils/logic`, not among the provided sources).  Spec §4.2:
`revenue / timeTaken`. -/
def taskROI (t : Task) : Rat :=
  t.revenue / t.timeTaken

/-- Modelled from the spec: `computeAverageROI` (`@/utils/logic`, not among
the provided sources).  Spec §4.4: arithmetic mean of per-task ROI, 0 for
the empty set. -/
def computeAverageROI (ts : List Task) : Rat :=
  if ts.length = 0 then 0 else (ts.map taskROI).sum / (ts.length : Rat)

/-- Modelled from the spec: `computeRevenuePerHour` (`@/utils/logic`, not
among the provided sources).  Spec §4.4: `totalRevenue / totalTimeTaken`,
defined as 0 when `totalTimeTaken = 0`. -/
def computeRevenuePerHour (ts : List Task) : Rat :=
  let tt := (ts.map Task.timeTaken).sum
  if tt = 0 then 0 else computeTotalRevenue ts / tt

/-- Modelled from the spec: `computeTimeEfficiency` (`@/utils/logic`, not
among the provided sources).  Spec §4.4 leaves the exact formula
implementation-defined but requires 0 on the empty set and a result
clamped to `[0, 100]`; we model it as the done-task count per hour of
total time, scaled to a percentage and clamped. -/
def computeTimeEfficiency (ts : List Task) : Rat :=
  if ts.length = 0 then 0
  else
    let doneCount := (ts.filter (fun t => t.status = Status.done)).length
    let tt := (ts.map Task.timeTaken).sum
    let raw := if tt = 0 then 0 else 100 * (doneCount : Rat) / tt
    min 100 (max 0 raw)

/-- Modelled from the spec: `computePerformanceGrade` (`@/utils/logic`, not
among the provided sources).  Spec §4.4: a categorical bucket of averageROI
against fixed thresholds, with default label "Needs Improvement" below the
lowest threshold. -/
def computePerformanceGrade (averageROI : Rat) : String :=
  if averageROI ≥ 100 then "Excellent"
  else if averageROI ≥ 50 then "Good"
  else "Needs Improvement"

/-- The `metrics` memo from `useTasks.ts` (lines 73-84): return
`INITIAL_METRICS` when the collection is empty, otherwise compute the
aggregates (`tasks.reduce((s, t) => s + t.timeTaken, 0)` is the inline
total-time fold). -/
def metrics (tasks : List Task) : Metrics :=
  if tasks.length = 0 then INITIAL_METRICS
  else
    let averageROI := computeAverageROI tasks
    { totalRevenue := computeTotalRevenue tasks
      totalTimeTaken := tasks.foldl (fun s t => s + t.timeTaken) 0
      timeEfficiencyPct := computeTimeEfficiency tasks
      revenuePerHour := computeRevenuePerHour tasks
      averageROI := averageROI
      performanceGrade := computePerformanceGrade averageROI }

/-! ### Initial load -/

/-- Modelled from the spec: `generateSalesTasks` (`@/utils/seed`) is not
among the provided sources.  Spec §6: a deterministic generated dataset of
the given count (default 50).  Modelled as a deterministic list of `n`
placeholder tasks. -/
def generateSalesTasks (n : Nat) : List Task :=
  (List.range n).map fun i =>
    { id := "seed-" ++ toString i
      title := "Seed Task " ++ toString i
      status := Status.todo
      priority := Priority.medium
      revenue := 0
      timeTaken := 1
      createdAt := 0
      completedAt := none }

/-- The possible outcomes of the `fetch('/tasks.json')` +
`res.json()` sequence in the load effect (lines 44-65):
`failure` is an exception thrown by `fetch` or `res.json()` (caught by the
`catch` block), `notOk` is `res.ok === false` (data defaulted to `[]`),
`nonArray` is a parse result that is not an array (normalized to `[]`),
and `array` is a parsed array of tasks. -/
inductive LoadOutcome where
  | failure (msg : String)
  | notOk
  | nonArray
  | array (data : List Task)
deriving Repr

/-- The hook state touched by the load effect. -/
structure LoadState where
  tasks : List Task
  loading : Bool
  error : Option String
deriving DecidableEq, Repr

/-- The initial hook state: `tasks = []`, `loading = true`, `error = null`. -/
def initLoadState : LoadState :=
  { tasks := [], loading := true, error := none }

/-- The `loadTasks` body of the effect (lines 47-59), given the fetch
outcome.  On an exception only `error` is set (the `catch` block); in the
other cases `normalized` is the parsed array or `[]`, and `safeData` falls
back to `generateSalesTasks 50` when `normalized` is empty.  The `finally`
block clears `loading` in every case. -/
def loadTasks (o : LoadOutcome) (s : LoadState) : LoadState :=
  match o with
  | LoadOutcome.failure msg => { s with error := some msg, loading := false }
  | o =>
    let normalized : List Task :=
      match o with
      | LoadOutcome.array data => data
      | _ => []
    let safeData := if normalized.length ≠ 0 then normalized
      else generateSalesTasks 50
    { s with tasks := safeData, loading := false }

/-! ### Concrete sample data for witnesses and counterexamples -/

/-- A concrete `addTask` payload whose initial status is Done. -/
def samplePayload : AddPayload :=
  { id := some "a"
    title := "Demo"
    status := Status.done
    priority := Priority.high
    revenue := 10
    timeTaken := 2 }

/-- A concrete task with id `"a"`. -/
def taskA : Task :=
  { id := "a"
    title := "Task A"
    status := Status.todo
    priority := Priority.high
    revenue := 5
    timeTaken := 2
    createdAt := 0
    completedAt := none }

/-- A concrete task with id `"b"`. -/
def taskB : Task :=
  { id := "b"
    title := "Task B"
    status := Status.done
    priority := Priority.low
    revenue := 7
    timeTaken := 3
    createdAt := 1
    completedAt := some 4 }

/-- A patch that only reopens the task (status back to Todo). -/
def reopenPatch : Patch := { status := some Status.todo }

/-- A patch that only moves the task to Done. -/
def redoPatch : Patch := { status := some Status.done }

/-! ### Claim theorems -/

/-- C9: over the empty collection the published metrics are exactly the
initial metrics: `totalRevenue = 0`, `totalTimeTaken = 0`,
`timeEfficiencyPct = 0`, `revenuePerHour = 0`, `averageROI = 0`, and the
default performance grade `"Needs Improvement"`; the guard in `metrics`
short-circuits before any division is attempted. -/
theorem C9_empty_metrics :
    metrics [] = INITIAL_METRICS ∧
    (metrics []).totalRevenue = 0 ∧
    (metrics []).totalTimeTaken = 0 ∧
    (metrics []).timeEfficiencyPct = 0 ∧
    (metrics []).revenuePerHour = 0 ∧
    (metrics []).averageROI = 0 ∧
    (metrics []).performanceGrade = "Needs Improvement" :=
  ⟨rfl, rfl, rfl, rfl, rfl, rfl, rfl⟩

/-- C2 (counterexample): with the collection `[taskA]` and the undo slot
holding `taskB`, deleting the absent id `"zzz"` leaves the collection
unchanged but resets the undo slot to `none`, so the slot does not keep
the value it held before the call as the claim states. -/
theorem C2_counterexample :
    "zzz" ∉ [taskA].map Task.id ∧
    (deleteTask "zzz" { tasks := [taskA], lastDeleted := some taskB }).tasks
        = [taskA] ∧
    (deleteTask "zzz" { tasks := [taskA], lastDeleted := some taskB }).lastDeleted
        = none ∧
    (some taskB ≠ (none : Option Task)) := by
  decide

/-- C2 (amended): deleting an id that is absent from the collection leaves
the collection unchanged but unconditionally overwrites the undo slot with
the `find?` result, i.e. `none`, discarding whatever the slot held. -/
theorem C2_delete_absent (id : String) (s : StoreState)
    (h : id ∉ s.tasks.map Task.id) :
    (deleteTask id s).tasks = s.tasks ∧ (deleteTask id s).lastDeleted = none := by
  constructor
  · show s.tasks.filter (fun t => t.id ≠ id) = s.tasks
    apply List.filter_eq_self.mpr
    intro t ht
    simp only [ne_eq, decide_not, Bool.not_eq_true', decide_eq_false_iff_not]
    intro hteq
    exact h (hteq ▸ List.mem_map_of_mem Task.id ht)
  · show s.tasks.find? (fun t => t.id = id) = none
    apply List.find?_eq_none.mpr
    intro t ht
    simp only [decide_eq_true_eq]
    intro hteq
    exact h (hteq ▸ List.mem_map_of_mem Task.id ht)

/-- Witness for `C2_delete_absent` at a concrete input. -/
theorem C2_delete_absent_witness :
    (deleteTask "zzz" { tasks := [taskA], lastDeleted := none }).tasks = [taskA] ∧
    (deleteTask "zzz" { tasks := [taskA], lastDeleted := none }).lastDeleted = none :=
  C2_delete_absent "zzz" { tasks := [taskA], lastDeleted := none } (by decide)

/-- C3 (counterexample): when the fetch (or parse) throws, the `catch`
branch only records the error string; the collection is left empty rather
than being populated with the generated dataset (which is non-empty). -/
theorem C3_counterexample :
    (loadTasks (LoadOutcome.failure "network down") initLoadState).tasks = [] ∧
    (loadTasks (LoadOutcome.failure "network down") initLoadState).error
        = some "network down" ∧
    generateSalesTasks 50 ≠ [] :=
  ⟨rfl, rfl, List.ne_nil_of_length_pos (by simp [generateSalesTasks])⟩

/-- C3 (amended): a non-ok response, a non-array parse result, and an empty
array all fall back to `generateSalesTasks 50`, and a non-empty array is
accepted as-is; but a thrown fetch/parse error only sets the error string
and leaves the collection unchanged. -/
theorem C3_load_fallback (s : LoadState) (msg : String) (data : List Task)
    (hd : data ≠ []) :
    (loadTasks (LoadOutcome.failure msg) s).tasks = s.tasks ∧
    (loadTasks (LoadOutcome.failure msg) s).error = some msg ∧
    (loadTasks LoadOutcome.notOk s).tasks = generateSalesTasks 50 ∧
    (loadTasks LoadOutcome.nonArray s).tasks = generateSalesTasks 50 ∧
    (loadTasks (LoadOutcome.array []) s).tasks = generateSalesTasks 50 ∧
    (loadTasks (LoadOutcome.array data) s).tasks = data := by
  refine ⟨rfl, rfl, rfl, rfl, rfl, ?_⟩
  show (if data.length ≠ 0 then data else generateSalesTasks 50) = data
  rw [if_pos]
  intro hz
  exact hd (List.length_eq_zero.mp hz)

/-- Witness for `C3_load_fallback` at a concrete input. -/
theorem C3_load_fallback_witness :
    (loadTasks (LoadOutcome.failure "boom") initLoadState).tasks
        = initLoadState.tasks ∧
    (loadTasks (LoadOutcome.failure "boom") initLoadState).error = some "boom" ∧
    (loadTasks LoadOutcome.notOk initLoadState).tasks = generateSalesTasks 50 ∧
    (loadTasks LoadOutcome.nonArray initLoadState).tasks = generateSalesTasks 50 ∧
    (loadTasks (LoadOutcome.array []) initLoadState).tasks
        = generateSalesTasks 50 ∧
    (loadTasks (LoadOutcome.array [taskA]) initLoadState).tasks = [taskA] :=
  C3_load_fallback initLoadState "boom" [taskA] (by decide)

/-- A task whose id does not match is returned unchanged by the update
body. -/
theorem updateTaskFn_of_ne (id : String) (p : Patch) (now : Nat) (t : Task)
    (h : t.id ≠ id) : updateTaskFn id p now t = t := by
  simp [updateTaskFn, h]

/-- The update body never changes a task's id when the patch carries no
`id` field: neither the merge, nor the `timeTaken` coercion, nor the
`completedAt` stamp touches it. -/
theorem updateTaskFn_id (id : String) (p : Patch) (now : Nat) (t : Task)
    (hid : p.id = none) : (updateTaskFn id p now t).id = t.id := by
  unfold updateTaskFn
  split
  · rfl
  · simp only [applyPatch, hid, Option.getD_none]
    split_ifs <;> rfl

/-- The update body never changes a task's `createdAt` when the patch
carries no `createdAt` field. -/
theorem updateTaskFn_createdAt (id : String) (p : Patch) (now : Nat) (t : Task)
    (hca : p.createdAt = none) :
    (updateTaskFn id p now t).createdAt = t.createdAt := by
  unfold updateTaskFn
  split
  · rfl
  · simp only [applyPatch, hca, Option.getD_none]
    split_ifs <;> rfl

/-- C8 (counterexample): a patch that carries a `createdAt` field is merged
verbatim by the spread in `updateTask`, so the stored `createdAt` changes
from 0 to 5, contradicting the claim that `createdAt` is immutable for
every patch. -/
theorem C8_counterexample :
    (updateTask "a" { createdAt := some 5 } 9
        { tasks := [taskA], lastDeleted := none }).tasks.map Task.createdAt
      = [5] ∧
    [taskA].map Task.createdAt = [0] ∧ (5 : Nat) ≠ 0 := by
  decide

/-- C8 (amended): `updateTask` leaves every task's `id` and `createdAt`
unchanged provided the patch itself carries neither an `id` nor a
`createdAt` field; the merge-then-fix-up pipeline never touches them on
its own. -/
theorem C8_id_createdAt_stable (id : String) (p : Patch) (now : Nat)
    (s : StoreState) (hid : p.id = none) (hca : p.createdAt = none) :
    (updateTask id p now s).tasks.map Task.id = s.tasks.map Task.id ∧
    (updateTask id p now s).tasks.map Task.createdAt
        = s.tasks.map Task.createdAt := by
  constructor
  · show (s.tasks.map (updateTaskFn id p now)).map Task.id = s.tasks.map Task.id
    rw [List.map_map]
    exact List.map_congr_left fun t _ => updateTaskFn_id id p now t hid
  · show (s.tasks.map (updateTaskFn id p now)).map Task.createdAt
        = s.tasks.map Task.createdAt
    rw [List.map_map]
    exact List.map_congr_left fun t _ => updateTaskFn_createdAt id p now t hca

/-- Witness for `C8_id_createdAt_stable` at a concrete input. -/
theorem C8_id_createdAt_stable_witness :
    (updateTask "a" reopenPatch 9
        { tasks := [taskA, taskB], lastDeleted := none }).tasks.map Task.id
      = [taskA, taskB].map Task.id ∧
    (updateTask "a" reopenPatch 9
        { tasks := [taskA, taskB], lastDeleted := none }).tasks.map Task.createdAt
      = [taskA, taskB].map Task.createdAt :=
  C8_id_createdAt_stable "a" reopenPatch 9
    { tasks := [taskA, taskB], lastDeleted := none } rfl rfl

/-- C10: `updateTask` maps over the collection, so it preserves the task
count and positions; every position holding a task whose id differs from
the targeted id still holds exactly the same task afterwards. -/
theorem C10_update_frame (id : String) (p : Patch) (now : Nat)
    (s : StoreState) :
    (updateTask id p now s).tasks.length = s.tasks.length ∧
    ∀ i t, s.tasks.get? i = some t → t.id ≠ id →
      (updateTask id p now s).tasks.get? i = some t := by
  constructor
  · show (s.tasks.map (updateTaskFn id p now)).length = s.tasks.length
    exact List.length_map s.tasks (updateTaskFn id p now)
  · intro i t hget hne
    show (s.tasks.map (updateTaskFn id p now)).get? i = some t
    rw [List.get?_map, hget]
    simp [updateTaskFn_of_ne id p now t hne]

/-- Witness for `C10_update_frame` at a concrete input: updating task
`"a"` leaves the length unchanged and task `"b"` at its position. -/
theorem C10_update_frame_witness :
    (updateTask "a" redoPatch 9
        { tasks := [taskA, taskB], lastDeleted := none }).tasks.length
      = ([taskA, taskB] : List Task).length ∧
    (updateTask "a" redoPatch 9
        { tasks := [taskA, taskB], lastDeleted := none }).tasks.get? 1
      = some taskB :=
  ⟨(C10_update_frame "a" redoPatch 9
      { tasks := [taskA, taskB], lastDeleted := none }).1,
   (C10_update_frame "a" redoPatch 9
      { tasks := [taskA, taskB], lastDeleted := none }).2 1 taskB
      (by decide) (by decide)⟩

/-- C1 (counterexample): adding a Done task at time 0 stamps
`completedAt = some 0`; editing the status back to Todo leaves it; but
re-editing the status to Done at time 2 re-enters the
`t.status !== 'Done' && next.status === 'Done'` branch and overwrites the
stamp with `some 2`, so `completedAt` is not set exactly once. -/
theorem C1_counterexample :
    (addTask samplePayload "gen" 0 initState).tasks.map Task.completedAt
        = [some 0] ∧
    (updateTask "a" reopenPatch 1
        (addTask samplePayload "gen" 0 initState)).tasks.map Task.completedAt
        = [some 0] ∧
    (updateTask "a" redoPatch 2 (updateTask "a" reopenPatch 1
        (addTask samplePayload "gen" 0 initState))).tasks.map Task.completedAt
        = [some 2] ∧
    (some 2 ≠ (some 0 : Option Nat)) := by
  decide

/-- C1 (amended): `completedAt` is stamped to the current time by every
write that moves status from non-Done to Done — `addTask` stamps it iff
the initial status is Done, and `updateTask` re-stamps it on every
non-Done-to-Done transition, including a re-completion after reopening,
overwriting the earlier stamp — while an update that does not so
transition and whose patch carries no `completedAt` field leaves
`completedAt` unchanged. -/
theorem C1_completedAt_policy (id : String) (p : Patch) (now : Nat)
    (s : StoreState) (q : AddPayload) (genId : String)
    (hp : p.completedAt = none) :
    (updateTask id p now s).tasks.map Task.completedAt =
      s.tasks.map (fun t =>
        if t.id = id ∧ t.status ≠ Status.done ∧
            (applyPatch t p).status = Status.done
        then some now
        else t.completedAt) ∧
    (addTask q genId now s).tasks.map Task.completedAt =
      s.tasks.map Task.completedAt ++
        [if q.status = Status.done then some now else none] := by
  constructor
  · show (s.tasks.map (updateTaskFn id p now)).map Task.completedAt = _
    rw [List.map_map]
    apply List.map_congr_left
    intro t _
    show (updateTaskFn id p now t).completedAt = _
    by_cases hid : t.id = id <;>
    by_cases h1 : t.status = Status.done <;>
    by_cases h2 : p.status.getD t.status = Status.done <;>
    by_cases h3 : p.timeTaken.getD t.timeTaken ≤ 0 <;>
      simp [updateTaskFn, applyPatch, hid, h1, h2, h3, hp]
  · show (s.tasks ++ [_]).map Task.completedAt = _
    rw [List.map_append]
    rfl

/-- Witness for `C1_completedAt_policy` at a concrete input. -/
theorem C1_completedAt_policy_witness :
    (updateTask "b" reopenPatch 9
        { tasks := [taskA, taskB], lastDeleted := none }).tasks.map
          Task.completedAt =
      [taskA, taskB].map (fun t =>
        if t.id = "b" ∧ t.status ≠ Status.done ∧
            (applyPatch t reopenPatch).status = Status.done
        then some 9
        else t.completedAt) ∧
    (addTask samplePayload "gen" 9
        { tasks := [taskA, taskB], lastDeleted := none }).tasks.map
          Task.completedAt =
      [taskA, taskB].map Task.completedAt ++
        [if samplePayload.status = Status.done then some 9 else none] :=
  C1_completedAt_policy "b" reopenPatch 9
    { tasks := [taskA, taskB], lastDeleted := none } samplePayload "gen" rfl

/-- C4: deleting a present id stores the removed record in the undo slot,
and an immediate `undoDelete` appends exactly that record back to the
collection and empties the slot. -/
theorem C4_delete_undo (s : StoreState) (id : String) (t : Task)
    (h : s.tasks.find? (fun x => x.id = id) = some t) :
    (undoDelete (deleteTask id s)).tasks
        = s.tasks.filter (fun x => x.id ≠ id) ++ [t] ∧
    t ∈ (undoDelete (deleteTask id s)).tasks ∧
    (undoDelete (deleteTask id s)).lastDeleted = none := by
  have hd : deleteTask id s =
      { tasks := s.tasks.filter (fun x => x.id ≠ id), lastDeleted := some t } := by
    simp [deleteTask, h]
  rw [hd]
  exact ⟨rfl, List.mem_append_right _ (List.mem_singleton_self t), rfl⟩

/-- Witness for `C4_delete_undo` at a concrete input. -/
theorem C4_delete_undo_witness :
    (undoDelete (deleteTask "a"
        { tasks := [taskA, taskB], lastDeleted := none })).tasks
      = ([taskA, taskB] : List Task).filter (fun x => x.id ≠ "a") ++ [taskA] ∧
    taskA ∈ (undoDelete (deleteTask "a"
        { tasks := [taskA, taskB], lastDeleted := none })).tasks ∧
    (undoDelete (deleteTask "a"
        { tasks := [taskA, taskB], lastDeleted := none })).lastDeleted = none :=
  C4_delete_undo { tasks := [taskA, taskB], lastDeleted := none } "a" taskA
    (by decide)

/-! ### The timeTaken positivity invariant -/

/-- Every task in the collection and any task held in the undo slot has
strictly positive `timeTaken`. -/
def timesPos (s : StoreState) : Prop :=
  (∀ t ∈ s.tasks, 0 < t.timeTaken) ∧ ∀ t ∈ s.lastDeleted, 0 < t.timeTaken

/-- The update body yields a positive `timeTaken` whenever the input task
had one: a merged value `≤ 0` is coerced to 1, and otherwise the merged
value is itself positive. -/
theorem updateTaskFn_timeTaken_pos (id : String) (p : Patch) (now : Nat)
    (t : Task) (h : 0 < t.timeTaken) :
    0 < (updateTaskFn id p now t).timeTaken := by
  by_cases hid : t.id = id <;>
  by_cases h2 : p.status.getD t.status = Status.done <;>
  by_cases h3 : p.timeTaken.getD t.timeTaken ≤ 0 <;>
  by_cases h1 : t.status = Status.done <;>
    simp [updateTaskFn, applyPatch, hid, h1, h2, h3, h]
  all_goals exact lt_of_not_le h3

/-- Each store operation preserves the `timesPos` invariant. -/
theorem timesPos_applyOp (o : Op) (s : StoreState) (h : timesPos s) :
    timesPos (applyOp o s) := by
  obtain ⟨htasks, hslot⟩ := h
  cases o with
  | add p genId now =>
    refine ⟨?_, hslot⟩
    intro t ht
    rcases List.mem_append.mp ht with hmem | hnew
    · exact htasks t hmem
    · rw [List.mem_singleton.mp hnew]
      show 0 < (if p.timeTaken > 0 then p.timeTaken else 1)
      split
      · assumption
      · exact one_pos
  | update id p now =>
    refine ⟨?_, hslot⟩
    intro t ht
    rcases List.mem_map.mp ht with ⟨u, hu, rfl⟩
    exact updateTaskFn_timeTaken_pos id p now u (htasks u hu)
  | del id =>
    constructor
    · intro t ht
      exact htasks t (List.mem_filter.mp ht).1
    · intro t ht
      have : s.tasks.find? (fun x => x.id = id) = some t := ht
      exact htasks t (List.mem_of_find?_eq_some this)
  | undo =>
    show timesPos (undoDelete s)
    unfold undoDelete
    cases hsd : s.lastDeleted with
    | none => exact ⟨htasks, hslot⟩
    | some a =>
      refine ⟨?_, by simp⟩
      intro t ht
      rcases List.mem_append.mp ht with hmem | hnew
      · exact htasks t hmem
      · rw [List.mem_singleton.mp hnew]
        exact hslot a (by rw [hsd]; rfl)
  | clearSlot =>
    refine ⟨htasks, ?_⟩
    intro t ht
    simp [applyOp, clearLastDeleted] at ht

/-- Running any operation sequence preserves the `timesPos` invariant. -/
theorem timesPos_runOps (ops : List Op) (s : StoreState) (h : timesPos s) :
    timesPos (runOps ops s) := by
  induction ops generalizing s with
  | nil => exact h
  | cons o os ih => exact ih (applyOp o s) (timesPos_applyOp o s h)

/-- C6: starting from any state whose stored tasks (and undo slot) all have
positive `timeTaken` — in particular the initial empty store — every
sequence of store operations leaves every stored `timeTaken` strictly
positive: adds and updates coerce a merged `timeTaken ≤ 0` to 1, and
delete/undo only move already-positive records. -/
theorem C6_timeTaken_pos (ops : List Op) (s : StoreState) (h : timesPos s) :
    ∀ t ∈ (runOps ops s).tasks, 0 < t.timeTaken :=
  (timesPos_runOps ops s h).1

/-- A payload with negative `timeTaken`. -/
def negPayload : AddPayload :=
  { id := some "n"
    title := "Neg"
    status := Status.todo
    priority := Priority.low
    revenue := 1
    timeTaken := -3 }

/-- The task that `addTask negPayload "gen" 3` stores: `timeTaken` coerced
to 1. -/
def negStoredTask : Task :=
  { id := "n"
    title := "Neg"
    status := Status.todo
    priority := Priority.low
    revenue := 1
    timeTaken := 1
    createdAt := 3
    completedAt := none }

/-- Witness for `C6_timeTaken_pos`: adding a task with `timeTaken = -3`
stores it with `timeTaken = 1 > 0`. -/
theorem C6_timeTaken_pos_witness : 0 < negStoredTask.timeTaken :=
  C6_timeTaken_pos [Op.add negPayload "gen" 3] initState
    ⟨by decide, by simp [initState]⟩ negStoredTask (by decide)

/-! ### Delete / undo interaction -/

/-- In a collection with pairwise-distinct ids, `find?` on a member's id
returns exactly that member. -/
theorem find_id_of_nodup (l : List Task) (b : Task)
    (hnd : (l.map Task.id).Nodup) (hb : b ∈ l) :
    l.find? (fun x => x.id = b.id) = some b := by
  induction l with
  | nil => cases hb
  | cons c tl ih =>
    rw [List.map_cons] at hnd
    have hnd' := List.nodup_cons.mp hnd
    rcases List.mem_cons.mp hb with rfl | hb'
    · exact List.find?_cons_of_pos tl (by simp)
    · have hc : c.id ≠ b.id := by
        intro hcb
        exact hnd'.1 (hcb ▸ List.mem_map_of_mem Task.id hb')
      rw [List.find?_cons_of_neg tl (by simpa using hc)]
      exact ih hnd'.2 hb'

/-- C5: with pairwise-distinct ids, deleting task `A`, then task `B`,
then undoing reinserts only `B`: the final collection is the original one
with both ids filtered out plus `B` appended, `A` is gone from it, and the
undo slot is empty. -/
theorem C5_second_delete (s : StoreState) (A B : Task)
    (hnd : (s.tasks.map Task.id).Nodup) (hA : A ∈ s.tasks) (hB : B ∈ s.tasks)
    (hAB : A ≠ B) :
    (undoDelete (deleteTask B.id (deleteTask A.id s))).tasks
        = ((s.tasks.filter (fun t => t.id ≠ A.id)).filter
            (fun t => t.id ≠ B.id)) ++ [B] ∧
    B ∈ (undoDelete (deleteTask B.id (deleteTask A.id s))).tasks ∧
    A ∉ (undoDelete (deleteTask B.id (deleteTask A.id s))).tasks ∧
    (undoDelete (deleteTask B.id (deleteTask A.id s))).lastDeleted = none := by
  have hid : A.id ≠ B.id := fun h =>
    hAB (List.inj_on_of_nodup_map hnd hA hB h)
  have hnd1 : (((deleteTask A.id s).tasks).map Task.id).Nodup :=
    List.Nodup.sublist
      (List.Sublist.map Task.id (List.filter_sublist s.tasks)) hnd
  have hB1 : B ∈ (deleteTask A.id s).tasks :=
    List.mem_filter.mpr ⟨hB, by simpa using (Ne.symm hid)⟩
  have hfind : (s.tasks.filter (fun t => t.id ≠ A.id)).find?
      (fun x => x.id = B.id) = some B :=
    find_id_of_nodup (s.tasks.filter (fun t => t.id ≠ A.id)) B hnd1 hB1
  have hd2 : deleteTask B.id (deleteTask A.id s) =
      { tasks := (s.tasks.filter (fun t => t.id ≠ A.id)).filter
          (fun t => t.id ≠ B.id)
        lastDeleted := some B } := by
    simp only [deleteTask]
    rw [hfind]
  rw [hd2]
  refine ⟨rfl, List.mem_append_right _ (List.mem_singleton_self B), ?_, rfl⟩
  intro hmem
  rcases List.mem_append.mp hmem with hfil | hsing
  · have := (List.mem_filter.mp (List.mem_filter.mp hfil).1).2
    simp at this
  · exact hAB (List.mem_singleton.mp hsing)

/-- Witness for `C5_second_delete` at a concrete input. -/
theorem C5_second_delete_witness :
    (undoDelete (deleteTask taskB.id (deleteTask taskA.id
        { tasks := [taskA, taskB], lastDeleted := none }))).tasks
      = ((([taskA, taskB] : List Task).filter
            (fun t => t.id ≠ taskA.id)).filter
            (fun t => t.id ≠ taskB.id)) ++ [taskB] ∧
    taskB ∈ (undoDelete (deleteTask taskB.id (deleteTask taskA.id
        { tasks := [taskA, taskB], lastDeleted := none }))).tasks ∧
    taskA ∉ (undoDelete (deleteTask taskB.id (deleteTask taskA.id
        { tasks := [taskA, taskB], lastDeleted := none }))).tasks ∧
    (undoDelete (deleteTask taskB.id (deleteTask taskA.id
        { tasks := [taskA, taskB], lastDeleted := none }))).lastDeleted
      = none :=
  C5_second_delete { tasks := [taskA, taskB], lastDeleted := none }
    taskA taskB (by decide) (by decide) (by decide) (by decide)

/-! ### The unique-id invariant -/

/-- The ids of the live collection are pairwise distinct, and any task in
the undo slot has an id absent from the live collection (so that an undo
cannot reintroduce a duplicate). -/
def uniqueIds (s : StoreState) : Prop :=
  (s.tasks.map Task.id).Nodup ∧ ∀ a ∈ s.lastDeleted, a.id ∉ s.tasks.map Task.id

/-- Freshness side conditions under which an operation cannot create a
duplicate id: an add's effective id (supplied or generated) is absent from
both the collection and the undo slot, and an update's patch carries no
`id` field.  The code performs none of these checks itself. -/
def OpSafe (s : StoreState) : Op → Prop :=
  fun o => match o with
  | Op.add p genId _ =>
      p.id.getD genId ∉ s.tasks.map Task.id ∧
      ∀ a ∈ s.lastDeleted, p.id.getD genId ≠ a.id
  | Op.update _ p _ => p.id = none
  | _ => True

/-- `OpSafe` holding at each intermediate state along a sequence. -/
def OpsSafe : StoreState → List Op → Prop
  | _, [] => True
  | s, o :: os => OpSafe s o ∧ OpsSafe (applyOp o s) os

/-- Each operation preserves `uniqueIds` under its freshness side
condition. -/
theorem uniqueIds_applyOp (o : Op) (s : StoreState) (h : uniqueIds s)
    (hsafe : OpSafe s o) : uniqueIds (applyOp o s) := by
  obtain ⟨hnd, hslot⟩ := h
  cases o with
  | add p genId now =>
    obtain ⟨hfresh, hslotfresh⟩ := hsafe
    constructor
    · show ((s.tasks ++ [_]).map Task.id).Nodup
      rw [List.map_append, List.nodup_append]
      refine ⟨hnd, List.nodup_singleton _, ?_⟩
      simp only [List.map_cons, List.map_nil]
      rw [List.disjoint_singleton]
      exact hfresh
    · intro a ha
      show a.id ∉ (s.tasks ++ [_]).map Task.id
      rw [List.map_append]
      intro hmem
      rcases List.mem_append.mp hmem with hin | hin
      · exact hslot a ha hin
      · exact hslotfresh a ha (List.mem_singleton.mp hin).symm
  | update id p now =>
    have hids : (s.tasks.map (updateTaskFn id p now)).map Task.id
        = s.tasks.map Task.id := by
      rw [List.map_map]
      exact List.map_congr_left fun t _ => updateTaskFn_id id p now t hsafe
    constructor
    · show ((s.tasks.map (updateTaskFn id p now)).map Task.id).Nodup
      rw [hids]
      exact hnd
    · intro a ha hmem
      rw [show (applyOp (Op.update id p now) s).tasks
          = s.tasks.map (updateTaskFn id p now) from rfl, hids] at hmem
      exact hslot a ha hmem
  | del id =>
    constructor
    · exact List.Nodup.sublist
        (List.Sublist.map Task.id (List.filter_sublist s.tasks)) hnd
    · intro a ha
      have hfind : s.tasks.find? (fun t => t.id = id) = some a := ha
      have haid : a.id = id := by simpa using List.find?_some hfind
      intro hmem
      rcases List.mem_map.mp hmem with ⟨t, htmem, hteq⟩
      have hne := (List.mem_filter.mp htmem).2
      simp only [ne_eq, decide_not, Bool.not_eq_true', decide_eq_false_iff_not]
        at hne
      exact hne (by rw [hteq, haid])
  | undo =>
    show uniqueIds (undoDelete s)
    unfold undoDelete
    cases hsd : s.lastDeleted with
    | none => exact ⟨hnd, hslot⟩
    | some a =>
      constructor
      · show ((s.tasks ++ [a]).map Task.id).Nodup
        rw [List.map_append, List.nodup_append]
        refine ⟨hnd, List.nodup_singleton _, ?_⟩
        simp only [List.map_cons, List.map_nil]
        rw [List.disjoint_singleton]
        exact hslot a (by rw [hsd]; rfl)
      · intro t ht
        exact Option.noConfusion ht
  | clearSlot =>
    refine ⟨hnd, ?_⟩
    intro t ht
    simp [applyOp, clearLastDeleted] at ht

/-- Running a sequence whose operations are all safe preserves
`uniqueIds`. -/
theorem uniqueIds_runOps (ops : List Op) (s : StoreState) (h : uniqueIds s)
    (hs : OpsSafe s ops) : uniqueIds (runOps ops s) := by
  induction ops generalizing s with
  | nil => exact h
  | cons o os ih =>
    exact ih (applyOp o s) (uniqueIds_applyOp o s h hs.1) hs.2

/-- C7 (counterexample): `addTask` performs no duplicate check, so
replaying an add whose payload supplies an id already present yields two
tasks with id `"a"` in the live collection. -/
theorem C7_counterexample :
    ((runOps [Op.add samplePayload "g1" 0, Op.add samplePayload "g2" 1]
        initState).tasks.map Task.id) = ["a", "a"] ∧
    ¬ (["a", "a"] : List String).Nodup := by
  decide

/-- C7 (amended): ids in the live collection stay pairwise distinct
provided every add's effective id (caller-supplied or generated) is fresh
with respect to both the collection and the undo slot, and no update patch
carries an `id` field; `addTask` itself performs no duplicate-id check, so
replaying an add with an id already present produces duplicates. -/
theorem C7_unique_ids (ops : List Op) (s : StoreState)
    (h : uniqueIds s) (hs : OpsSafe s ops) :
    ((runOps ops s).tasks.map Task.id).Nodup :=
  (uniqueIds_runOps ops s h hs).1

/-- Witness for `C7_unique_ids`: two adds with fresh ids, a delete and an
undo keep the ids pairwise distinct. -/
theorem C7_unique_ids_witness :
    ((runOps [Op.add samplePayload "g1" 0,
        Op.add negPayload "g2" 1, Op.del "a", Op.undo]
        initState).tasks.map Task.id).Nodup :=
  C7_unique_ids [Op.add samplePayload "g1" 0,
      Op.add negPayload "g2" 1, Op.del "a", Op.undo] initState
    (by simp [uniqueIds, initState])
    (by simp [OpsSafe, OpSafe, applyOp, addTask, deleteTask, undoDelete,
      initState, samplePayload, negPayload])

end TaskGlitch
